import Mathlib

/-!
# Verification of the MidiPlayer repository

A shallow embedding, in Lean 4, of the MidiPlayer repository
(`src/MidiPlayer.js` and `src/MidiParser.js`), together with theorems
settling the frozen claims about it.

Conventions of the embedding:

* JavaScript numbers are modelled as `ℚ` (timestamps, tick counters,
  tempo values) or as `Int`/`Nat` where the source only ever holds
  integers.  Division by zero in `ℚ` yields `0`; the spots where the
  JavaScript source could instead produce `Infinity`/`NaN` are noted
  in the corresponding doc comments.
* JavaScript objects holding note events are modelled by the structure
  `NoteEvent`; fields that an event object may lack (`channel`,
  `track`, `velocity`, `length`) are `Option`s, `none` meaning the key
  is absent.
* Mutation is modelled by explicit state passing of `PlayerState`.
  Methods that fire callbacks return the list of fired triggers next
  to the new state; callback handlers themselves are outside the
  model, so a fired trigger is simply recorded.
* Wall-clock time is outside the embedding: `_startingTime` (a pure
  wall-clock anchor with no influence on the event lists) is dropped,
  and the projection `getCurrentTime` returns the stored
  `currentTime`, which is exact while the player is paused.  The
  dispatch loop of `play` is modelled sequentially: each wait is
  idealised as advancing `currentTime` to the awaited timestamp.
-/

/-- A formatted note event, after `MidiParser._formatReplayerData` or as
given to `addEvent` (the `noteEvent` typedef of `MidiPlayer.js`).
`timestamp`, `note` and `type` are required by `addEvent`; the other
keys may be absent (`none`). -/
structure NoteEvent where
  timestamp : ℚ
  note : Int
  type : String
  channel : Option Int := none
  track : Option Int := none
  velocity : Option Int := none
  length : Option ℚ := none
deriving DecidableEq, Repr, Inhabited

/-- A search pattern as passed to `removeEvents`: a JavaScript object
holding any subset of the keys of a note event.  `some v` means the
key is present with value `v`. -/
structure EventPattern where
  timestamp : Option ℚ := none
  note : Option Int := none
  type : Option String := none
  channel : Option Int := none
  track : Option Int := none
  velocity : Option Int := none
  length : Option ℚ := none
deriving DecidableEq, Repr, Inhabited

/-- `objContainsObj original comparison` from `MidiPlayer.js`
(`removeEvents`): the original object has every key of the comparison
object, with strictly equal values.  For the `Option` keys of
`NoteEvent`, key presence is `some`. -/
def objContainsObj (original : NoteEvent) (comparison : EventPattern) : Bool :=
  (match comparison.timestamp with | none => true | some v => decide (original.timestamp = v)) &&
  (match comparison.note with | none => true | some v => decide (original.note = v)) &&
  (match comparison.type with | none => true | some v => decide (original.type = v)) &&
  (match comparison.channel with | none => true | some v => decide (original.channel = some v)) &&
  (match comparison.track with | none => true | some v => decide (original.track = some v)) &&
  (match comparison.velocity with | none => true | some v => decide (original.velocity = some v)) &&
  (match comparison.length with | none => true | some v => decide (original.length = some v))

/-- The observable state of a `MidiPlayer` instance: the pending event
list `_events`, the `_playedEvents` list, `_currentTime`, `_speed`,
`_duration` and the `_playing` flag.  The wall-clock anchor
`_startingTime` is not modelled (see the module doc comment). -/
structure PlayerState where
  events : List NoteEvent
  playedEvents : List NoteEvent
  currentTime : ℚ
  speed : ℚ
  duration : ℚ
  playing : Bool
deriving DecidableEq, Repr, Inhabited

/-- A callback firing recorded by the model: either a lifecycle
callback class (`play`, `pause`, `stop`, `finish`) or a dispatched
note event (`_handleEvent` triggers the callbacks of `event.type`
with the event as data). -/
inductive Trigger where
  | lifecycle (name : String)
  | note (e : NoteEvent)
deriving DecidableEq, Repr

/-- `getMidiEvents`: the concatenation of played and pending events. -/
def getMidiEvents (st : PlayerState) : List NoteEvent :=
  st.playedEvents ++ st.events

/-- `getCurrentTime`: returns `_currentTime`.  The wall-clock
re-projection performed while playing is outside the model; while the
player is paused this is exactly the source behaviour. -/
def getCurrentTime (st : PlayerState) : ℚ :=
  st.currentTime

/-- `isPlaying`. -/
def isPlaying (st : PlayerState) : Bool :=
  st.playing

/-- `_updateDuration`: the duration becomes the timestamp of the last
pending event, else of the last played event, else `0`. -/
def updateDuration (st : PlayerState) : PlayerState :=
  { st with duration :=
      match st.events.getLast? with
      | some e => e.timestamp
      | none =>
        match st.playedEvents.getLast? with
        | some e => e.timestamp
        | none => 0 }

/-- `pause`: if playing, clear the flag and fire the `pause`
callbacks; otherwise do nothing. -/
def pause (st : PlayerState) : PlayerState × List Trigger :=
  if st.playing then ({ st with playing := false }, [Trigger.lifecycle "pause"])
  else (st, [])

/-- First loop of `setTime`: while the pending list is non-empty and
`miliseconds` is greater than its first timestamp, shift the first
pending event and push it onto the played list. -/
def setTimeForward (ms : ℚ) (played : List NoteEvent) : List NoteEvent → List NoteEvent × List NoteEvent
  | [] => (played, [])
  | e :: rest =>
    if ms > e.timestamp then setTimeForward ms (played ++ [e]) rest
    else (played, e :: rest)

/-- Second loop of `setTime`, acting on the reversed played list:
while the played list is non-empty and `miliseconds` is at most its
last timestamp, pop the last played event and unshift it onto the
pending list.  Popping from the end of the array is modelled as
taking the head of the reversed list. -/
def setTimeBackward (ms : ℚ) : List NoteEvent → List NoteEvent → List NoteEvent × List NoteEvent
  | [], pending => ([], pending)
  | e :: revRest, pending =>
    if ms ≤ e.timestamp then setTimeBackward ms revRest (e :: pending)
    else (e :: revRest, pending)

/-- `setTime(miliseconds)`: migrate events across the played/pending
partition so that the boundary matches the target time, then set the
current time.  (The `_startingTime` adjustment is not modelled.) -/
def setTime (st : PlayerState) (ms : ℚ) : PlayerState :=
  let (p1, e1) := setTimeForward ms st.playedEvents st.events
  let (rp2, e2) := setTimeBackward ms p1.reverse e1
  { st with playedEvents := rp2.reverse, events := e2, currentTime := ms }

/-- `stop`: pause, seek to zero, fire the `stop` callbacks. -/
def stop (st : PlayerState) : PlayerState × List Trigger :=
  let (s1, tr) := pause st
  (setTime s1 0, tr ++ [Trigger.lifecycle "stop"])

/-- `removeEvents(search)`: drop, from both sequences, every event
that `objContainsObj`-matches the search pattern. -/
def removeEvents (st : PlayerState) (search : EventPattern) : PlayerState :=
  { st with
    playedEvents := st.playedEvents.filter (fun e => !objContainsObj e search),
    events := st.events.filter (fun e => !objContainsObj e search) }

/-- `reset`: stop, then remove every event (empty search pattern). -/
def reset (st : PlayerState) : PlayerState × List Trigger :=
  let (s1, tr) := stop st
  (removeEvents s1 {}, tr)

/-- `loadParsedMidi(events, noteShift)`: reset, store the events as
the pending list, apply the note shift when it is non-zero (the
JavaScript truthiness test `if (noteShift)`), recompute the
duration. -/
def loadParsedMidi (st : PlayerState) (evs : List NoteEvent) (noteShift : Int) :
    PlayerState × List Trigger :=
  let (s1, tr) := reset st
  let s2 := { s1 with events := evs }
  let s3 :=
    if noteShift ≠ 0 then
      { s2 with events := s2.events.map (fun e => { e with note := e.note + noteShift }) }
    else s2
  (updateDuration s3, tr)

/-- The sign normalisation applied to the comparator result inside
`locationOf`: `1` for positive, `-1` for negative, `0` otherwise.
The comparator used by `addEvent` is `(a, b) => a.timestamp - b.timestamp`. -/
def compareSign (a b : NoteEvent) : Int :=
  if a.timestamp - b.timestamp > 0 then 1
  else if a.timestamp - b.timestamp < 0 then -1
  else 0

/-- The recursive core of `locationOf` (binary search for the
insertion position), on the index range `[start, stop)`. -/
def locationOfAux (e : NoteEvent) (array : List NoteEvent) (start stop : Nat) : Nat :=
  let middle := (start + stop) / 2
  let c := compareSign e (array.getD middle default)
  if stop - start ≤ 1 then
    if c = -1 then middle else middle + 1
  else if c = -1 then locationOfAux e array start middle
  else if c = 0 then middle
  else locationOfAux e array middle stop
termination_by stop - start
decreasing_by
  · omega
  · omega

/-- `locationOf(element, array, comparer)` from `MidiPlayer.js`:
`-1` on an empty array, otherwise the binary-search position with
default bounds `0` and `array.length`. -/
def locationOf (e : NoteEvent) (array : List NoteEvent) : Int :=
  if array.length = 0 then -1
  else (locationOfAux e array 0 array.length : Int)

/-- `array.splice(idx, 0, x)` as used by `addEvent`: insert `x` at
index `idx`, where a negative index counts from the end (clamped at
`0`) and an index beyond the length appends.  `take`/`drop` clamp
exactly as `splice` does. -/
def jsSpliceInsert (arr : List NoteEvent) (idx : Int) (x : NoteEvent) : List NoteEvent :=
  let i : Nat := if idx < 0 then (max ((arr.length : Int) + idx) 0).toNat else idx.toNat
  arr.take i ++ x :: arr.drop i

/-- `addEvent(newEvent)`: binary-search-insert into the pending list
when the timestamp is strictly greater than the current time, else
into the played list, then recompute the duration.  The
`hasOwnProperty` guards of the source always pass in this model,
`timestamp`, `note` and `type` being mandatory fields of
`NoteEvent`. -/
def addEvent (st : PlayerState) (newEvent : NoteEvent) : PlayerState :=
  let eventArray := if newEvent.timestamp > getCurrentTime st then st.events else st.playedEvents
  let location := locationOf newEvent eventArray
  let st1 :=
    if newEvent.timestamp > getCurrentTime st then
      { st with events := jsSpliceInsert st.events location newEvent }
    else
      { st with playedEvents := jsSpliceInsert st.playedEvents location newEvent }
  updateDuration st1

/-- Repeated `addEvent`, one event at a time, in list order. -/
def addEvents (st : PlayerState) (l : List NoteEvent) : PlayerState :=
  l.foldl addEvent st

/-- The timestamp of the first `noteOn` event with the given note
found strictly after index `k` (the inner scan of the noteOff
mirroring loop of `reverseMidiData`). -/
def findNoteOnTimestamp (events : List NoteEvent) (k : Nat) (note : Int) : Option ℚ :=
  ((events.drop (k + 1)).find? (fun x => x.type == "noteOn" && x.note == note)).map
    (fun x => x.timestamp)

/-- The noteOff mirroring pass of `reverseMidiData`: every `noteOff`
event is mirrored around the first following `noteOn` event with the
same note (`timestamp += 2 * timeDiff`).  The in-place mutation of
the source is pure here because the pass only rewrites `noteOff`
timestamps while the inner scan only reads `noteOn` events, which the
pass never modifies. -/
def mirrorNoteOffs (events : List NoteEvent) : List NoteEvent :=
  events.mapIdx (fun k e =>
    if e.type == "noteOff" then
      match findNoteOnTimestamp events k e.note with
      | some tOn => { e with timestamp := e.timestamp + 2 * (tOn - e.timestamp) }
      | none => e
    else e)

/-- Insert an event into a list sorted by timestamp, before any event
of equal timestamp coming from further right. -/
def orderedInsert (e : NoteEvent) : List NoteEvent → List NoteEvent
  | [] => [e]
  | x :: xs => if e.timestamp ≤ x.timestamp then e :: x :: xs else x :: orderedInsert e xs

/-- `events.sort((a, b) => a.timestamp - b.timestamp)`: JavaScript
`Array.prototype.sort` is a stable ascending sort by timestamp,
modelled as a stable insertion sort. -/
def jsSortByTimestamp (l : List NoteEvent) : List NoteEvent :=
  l.foldr orderedInsert []

/-- The pure transformation applied by `reverseMidiData` to the full
event list: reverse, mirror each timestamp around the duration,
re-mirror noteOffs around their paired noteOn, re-sort by timestamp,
shift so the first timestamp is `0`. -/
def reverseTransform (duration : ℚ) (events : List NoteEvent) : List NoteEvent :=
  let ev1 := events.reverse
  let ev2 := ev1.map (fun e => { e with timestamp := duration - e.timestamp })
  let ev3 := mirrorNoteOffs ev2
  let ev4 := jsSortByTimestamp ev3
  let timeOffset := (ev4.headD default).timestamp
  ev4.map (fun e => { e with timestamp := e.timestamp - timeOffset })

/-- `reverseMidiData`: apply `reverseTransform` to `getMidiEvents`
with the current duration, then reload through `loadParsedMidi`
(whose `noteShift` argument is omitted in the source, hence falsy). -/
def reverseMidiData (st : PlayerState) : PlayerState × List Trigger :=
  loadParsedMidi st (reverseTransform st.duration (getMidiEvents st)) 0

/-- The dispatch loop of `play`, sequentially: with `_playing` held
true, repeatedly shift the first pending event, wait for it
(idealised as advancing the current time to its timestamp), dispatch
it and push it onto the played list.  Returns the final pending list,
played list, current time and the dispatched triggers. -/
def playLoop : List NoteEvent → List NoteEvent → ℚ →
    List NoteEvent × List NoteEvent × ℚ × List Trigger
  | [], played, time => ([], played, time, [])
  | e :: rest, played, _ =>
    let (p', pl', t', tr) := playLoop rest (played ++ [e]) e.timestamp
    (p', pl', t', Trigger.note e :: tr)

/-- `play()`: set `_playing`, fire the `play` callbacks, run the
dispatch loop, then `pause()`, and fire `finish` if no pending event
remains.  There is no guard against being called while already
playing.  Modelled sequentially (no interleaved mutation), so the
loop consumes every pending event. -/
def play (st : PlayerState) : PlayerState × List Trigger :=
  let st1 := { st with playing := true }
  let (pend, played, t, trs) := playLoop st1.events st1.playedEvents st1.currentTime
  let st2 := { st1 with events := pend, playedEvents := played, currentTime := t }
  let (st3, trP) := pause st2
  let finishTr := if st3.events.isEmpty then [Trigger.lifecycle "finish"] else []
  (st3, Trigger.lifecycle "play" :: trs ++ trP ++ finishTr)

/-!
## The MIDI parser (`MidiParser.js`)

The `Stream` wrapper reads a binary string sequentially; all reads are
forward, so a stream is modelled as the list of remaining byte values.
Reading past the end of the buffer yields `0` in this model (the
JavaScript `charCodeAt` would yield `NaN`); every claim below only
exercises in-bounds reads.
-/

/-- JavaScript 32-bit signed-integer coercion (`ToInt32`), as applied
by the `<<` shift operators of the source. -/
def jsToInt32 (x : Int) : Int :=
  let m := x % 4294967296
  if m ≥ 2147483648 then m - 4294967296 else m

/-- `Stream.read(length)`: the next `length` bytes and the rest.  A
negative length (possible because `readInt32` is a signed read) takes
nothing, as `substr` does. -/
def streamRead (s : List Nat) (len : Int) : List Nat × List Nat :=
  (s.take len.toNat, s.drop len.toNat)

/-- `Stream.readInt8()` (unsigned). -/
def readInt8 (s : List Nat) : Nat × List Nat :=
  (s.headD 0, s.tail)

/-- `Stream.readInt8(true)`: a byte at or above `128` is reinterpreted
as `value - 256`. -/
def readInt8Signed (s : List Nat) : Int × List Nat :=
  let b := s.headD 0
  ((if b > 127 then (b : Int) - 256 else (b : Int)), s.tail)

/-- `Stream.readInt16()`: big-endian, two bytes.  No 32-bit wraparound
is possible for byte values below `2 ^ 16`. -/
def readInt16 (s : List Nat) : Nat × List Nat :=
  (s.getD 0 0 * 256 + s.getD 1 0, s.drop 2)

/-- `Stream.readInt32()`: big-endian, four bytes; each `<<` shift is
coerced through `ToInt32`, so a first byte of `128` or more produces a
negative result, exactly as in the source. -/
def readInt32 (s : List Nat) : Int × List Nat :=
  (jsToInt32 ((s.getD 0 0 : Int) * 16777216) + jsToInt32 ((s.getD 1 0 : Int) * 65536) +
      jsToInt32 ((s.getD 2 0 : Int) * 256) + (s.getD 3 0 : Int),
    s.drop 4)

/-- The loop of `Stream.readletInt()` (MIDI variable-length quantity):
accumulate 7 bits per byte while the continuation bit is set, with the
32-bit wraparound of the JavaScript `<<= 7`.  At the end of the buffer
the modelled byte is `0`, whose continuation bit is clear, so the loop
returns. -/
def readletIntAux : List Nat → Int → Int × List Nat
  | [], result => (result, [])
  | b :: rest, result =>
    if b &&& 0x80 ≠ 0 then readletIntAux rest (jsToInt32 ((result + (b &&& 0x7f : Nat)) * 128))
    else (result + (b : Int), rest)

/-- `Stream.readletInt()`. -/
def readletInt (s : List Nat) : Int × List Nat :=
  readletIntAux s 0

/-- A raw event decoded by `readEvent` inside `MidiFile`.  One
structure covers every variant; fields not set by a variant keep their
default.  `text` and `data` hold raw byte payloads (the source keeps
them as binary strings). -/
structure ParsedEvent where
  deltaTime : Int := 0
  type : String := ""
  subtype : String := ""
  channel : Int := 0
  noteNumber : Int := 0
  velocity : Int := 0
  amount : Int := 0
  controllerType : Int := 0
  value : Int := 0
  programNumber : Int := 0
  microsecondsPerBeat : ℚ := 0
  number : Int := 0
  text : List Nat := []
  data : List Nat := []
  frameRate : Int := 0
  hour : Int := 0
  min : Int := 0
  sec : Int := 0
  frame : Int := 0
  subframe : Int := 0
  numerator : Int := 0
  denominator : ℚ := 0
  metronome : Int := 0
  thirtyseconds : Int := 0
  key : Int := 0
  scale : Int := 0

instance : Inhabited ParsedEvent := ⟨{}⟩

/-- The switch on the channel-event type nibble inside `readEvent`,
shared by the running-status and the fresh-status forms.  `param1` is
the first parameter byte, `statusByte` the (possibly reused) status
byte; the returned `Nat` is the running-status byte after the event,
which in both forms equals `statusByte`. -/
def channelEvent (ev0 : ParsedEvent) (param1 statusByte : Nat) (s : List Nat) :
    Except String (ParsedEvent × Nat × List Nat) :=
  let eventType := statusByte >>> 4
  let ev1 := { ev0 with channel := (statusByte &&& 0x0f : Nat), type := "channel" }
  if eventType = 0x08 then
    let (v, s) := readInt8 s
    .ok ({ ev1 with subtype := "noteOff", noteNumber := param1, velocity := v }, statusByte, s)
  else if eventType = 0x09 then
    let (v, s) := readInt8 s
    .ok ({ ev1 with
            noteNumber := param1
            velocity := v
            subtype := if v = 0 then "noteOff" else "noteOn" }, statusByte, s)
  else if eventType = 0x0a then
    let (a, s) := readInt8 s
    .ok ({ ev1 with subtype := "noteAftertouch", noteNumber := param1, amount := a }, statusByte, s)
  else if eventType = 0x0b then
    let (v, s) := readInt8 s
    .ok ({ ev1 with subtype := "controller", controllerType := param1, value := v }, statusByte, s)
  else if eventType = 0x0c then
    .ok ({ ev1 with subtype := "programChange", programNumber := param1 }, statusByte, s)
  else if eventType = 0x0d then
    .ok ({ ev1 with subtype := "channelAftertouch", amount := param1 }, statusByte, s)
  else if eventType = 0x0e then
    let (v, s) := readInt8 s
    .ok ({ ev1 with subtype := "pitchBend", value := (param1 : Int) + v * 128 }, statusByte, s)
  else
    .error ("Unrecognised MIDI event type: " ++ toString eventType)

/-- The meta-event arm of `readEvent` (`eventTypeByte = 0xff`): read
the subtype byte and a variable-length payload length, then dispatch
on the subtype; the fixed-length subtypes fail when the declared
length differs from the expected one. -/
def metaEvent (ev0 : ParsedEvent) (lastEventTypeByte : Nat) (s : List Nat) :
    Except String (ParsedEvent × Nat × List Nat) :=
  let (subtypeByte, s) := readInt8 s
  let (len, s) := readletInt s
  if subtypeByte = 0x00 then
    if len ≠ 2 then .error ("Expected length for sequenceNumber event is 2, got " ++ toString len)
    else
      let (n, s) := readInt16 s
      .ok ({ ev0 with subtype := "sequenceNumber", number := n }, lastEventTypeByte, s)
  else if subtypeByte = 0x01 then
    let (t, s) := streamRead s len
    .ok ({ ev0 with subtype := "text", text := t }, lastEventTypeByte, s)
  else if subtypeByte = 0x02 then
    let (t, s) := streamRead s len
    .ok ({ ev0 with subtype := "copyrightNotice", text := t }, lastEventTypeByte, s)
  else if subtypeByte = 0x03 then
    let (t, s) := streamRead s len
    .ok ({ ev0 with subtype := "trackName", text := t }, lastEventTypeByte, s)
  else if subtypeByte = 0x04 then
    let (t, s) := streamRead s len
    .ok ({ ev0 with subtype := "instrumentName", text := t }, lastEventTypeByte, s)
  else if subtypeByte = 0x05 then
    let (t, s) := streamRead s len
    .ok ({ ev0 with subtype := "lyrics", text := t }, lastEventTypeByte, s)
  else if subtypeByte = 0x06 then
    let (t, s) := streamRead s len
    .ok ({ ev0 with subtype := "marker", text := t }, lastEventTypeByte, s)
  else if subtypeByte = 0x07 then
    let (t, s) := streamRead s len
    .ok ({ ev0 with subtype := "cuePoint", text := t }, lastEventTypeByte, s)
  else if subtypeByte = 0x20 then
    if len ≠ 1 then .error ("Expected length for midiChannelPrefix event is 1, got " ++ toString len)
    else
      let (c, s) := readInt8 s
      .ok ({ ev0 with subtype := "midiChannelPrefix", channel := c }, lastEventTypeByte, s)
  else if subtypeByte = 0x2f then
    if len ≠ 0 then .error ("Expected length for endOfTrack event is 0, got " ++ toString len)
    else .ok ({ ev0 with subtype := "endOfTrack" }, lastEventTypeByte, s)
  else if subtypeByte = 0x51 then
    if len ≠ 3 then .error ("Expected length for setTempo event is 3, got " ++ toString len)
    else
      let (b1, s) := readInt8 s
      let (b2, s) := readInt8 s
      let (b3, s) := readInt8 s
      .ok ({ ev0 with
              subtype := "setTempo"
              microsecondsPerBeat := ((b1 * 65536 + b2 * 256 + b3 : Nat) : ℚ) },
        lastEventTypeByte, s)
  else if subtypeByte = 0x54 then
    if len ≠ 5 then .error ("Expected length for smpteOffset event is 5, got " ++ toString len)
    else
      let (hourByte, s) := readInt8 s
      let fr : Int :=
        if hourByte &&& 0x60 = 0x00 then 24
        else if hourByte &&& 0x60 = 0x20 then 25
        else if hourByte &&& 0x60 = 0x40 then 29
        else 30
      let (mn, s) := readInt8 s
      let (sc, s) := readInt8 s
      let (f, s) := readInt8 s
      let (sf, s) := readInt8 s
      .ok ({ ev0 with
              subtype := "smpteOffset"
              frameRate := fr
              hour := (hourByte &&& 0x1f : Nat)
              min := mn
              sec := sc
              frame := f
              subframe := sf }, lastEventTypeByte, s)
  else if subtypeByte = 0x58 then
    if len ≠ 4 then .error ("Expected length for timeSignature event is 4, got " ++ toString len)
    else
      let (nu, s) := readInt8 s
      let (de, s) := readInt8 s
      let (me, s) := readInt8 s
      let (th, s) := readInt8 s
      .ok ({ ev0 with
              subtype := "timeSignature"
              numerator := nu
              denominator := ((2 : ℚ) ^ de)
              metronome := me
              thirtyseconds := th },
        lastEventTypeByte, s)
  else if subtypeByte = 0x59 then
    if len ≠ 2 then .error ("Expected length for keySignature event is 2, got " ++ toString len)
    else
      let (k, s) := readInt8Signed s
      let (sc, s) := readInt8 s
      .ok ({ ev0 with subtype := "keySignature", key := k, scale := sc },
        lastEventTypeByte, s)
  else if subtypeByte = 0x7f then
    let (d, s) := streamRead s len
    .ok ({ ev0 with subtype := "sequencerSpecific", data := d }, lastEventTypeByte, s)
  else
    let (d, s) := streamRead s len
    .ok ({ ev0 with subtype := "unknown", data := d }, lastEventTypeByte, s)

/-- `readEvent(stream)` from `MidiFile`: one event of a track chunk.
`lastEventTypeByte` (the running-status byte, a mutable variable of
the enclosing `MidiFile` scope) is threaded explicitly: the result
carries the event, the new running-status byte and the remaining
stream.  Thrown strings become `Except.error`. -/
def readEvent (lastEventTypeByte : Nat) (s : List Nat) :
    Except String (ParsedEvent × Nat × List Nat) :=
  let (dt, s) := readletInt s
  let ev0 : ParsedEvent := { deltaTime := dt }
  let (eventTypeByte, s) := readInt8 s
  if eventTypeByte &&& 0xf0 = 0xf0 then
    if eventTypeByte = 0xff then
      metaEvent { ev0 with type := "meta" } lastEventTypeByte s
    else if eventTypeByte = 0xf0 then
      let (len, s) := readletInt s
      let (d, s) := streamRead s len
      .ok ({ ev0 with type := "sysEx", data := d }, lastEventTypeByte, s)
    else if eventTypeByte = 0xf7 then
      let (len, s) := readletInt s
      let (d, s) := streamRead s len
      .ok ({ ev0 with type := "dividedSysEx", data := d }, lastEventTypeByte, s)
    else
      .error ("Unrecognised MIDI event type byte: " ++ toString eventTypeByte)
  else
    -- channel event: in the running-status case the byte just read is the
    -- first parameter and the status byte is reused; otherwise a fresh
    -- parameter byte is read and the status byte becomes the new running
    -- status.  Both forms continue identically in `channelEvent`, which
    -- returns the status byte in effect (= the running status afterwards).
    if eventTypeByte &&& 0x80 = 0 then
      channelEvent ev0 eventTypeByte lastEventTypeByte s
    else
      let (p, s1) := readInt8 s
      channelEvent ev0 p eventTypeByte s1

/-- `readletIntAux` consumes at least one byte of a non-empty stream
and never grows it. -/
theorem readletIntAux_length (s : List Nat) (r : Int) :
    (readletIntAux s r).2.length ≤ s.length - 1 := by
  induction s generalizing r with
  | nil => simp [readletIntAux]
  | cons b rest ih =>
    rw [readletIntAux]
    split
    · exact le_trans (ih _) (by simp)
    · simp

/-- `channelEvent` never grows the stream. -/
theorem channelEvent_length (ev0 : ParsedEvent) (param1 statusByte : Nat) (s : List Nat)
    (ev : ParsedEvent) (last2 : Nat) (s2 : List Nat)
    (h : channelEvent ev0 param1 statusByte s = .ok (ev, last2, s2)) :
    s2.length ≤ s.length := by
  unfold channelEvent at h
  simp only [readInt8] at h
  repeat' split at h
  all_goals first
    | simp only [reduceCtorEq] at h
    | (simp only [Except.ok.injEq, Prod.mk.injEq] at h
       obtain ⟨-, -, hs⟩ := h
       subst hs
       try simp only [List.length_tail]
       omega)

set_option maxHeartbeats 1000000 in
/-- `metaEvent` never grows the stream. -/
theorem metaEvent_length (ev0 : ParsedEvent) (last : Nat) (s : List Nat)
    (ev : ParsedEvent) (last2 : Nat) (s2 : List Nat)
    (h : metaEvent ev0 last s = .ok (ev, last2, s2)) :
    s2.length ≤ s.length := by
  unfold metaEvent readletInt at h
  simp only [readInt8, readInt16, readInt8Signed, streamRead] at h
  have hx := readletIntAux_length s.tail 0
  rcases hLP : readletIntAux s.tail 0 with ⟨len, s3⟩
  simp only [hLP] at h hx
  simp only [List.length_tail] at hx
  by_cases hc0 : s.headD 0 = 0x00
  · simp only [hc0, eq_self_iff_true, reduceIte] at h
    repeat' split at h
    all_goals first
      | simp only [reduceCtorEq] at h
      | (simp only [Except.ok.injEq, Prod.mk.injEq] at h
         obtain ⟨-, -, hs⟩ := h
         subst hs
         try simp only [List.length_drop, List.length_take, List.length_tail]
         omega)
  simp only [hc0, reduceIte] at h
  by_cases hc1 : s.headD 0 = 0x01
  · simp only [hc1, eq_self_iff_true, reduceIte] at h
    repeat' split at h
    all_goals first
      | simp only [reduceCtorEq] at h
      | (simp only [Except.ok.injEq, Prod.mk.injEq] at h
         obtain ⟨-, -, hs⟩ := h
         subst hs
         try simp only [List.length_drop, List.length_take, List.length_tail]
         omega)
  simp only [hc1, reduceIte] at h
  by_cases hc2 : s.headD 0 = 0x02
  · simp only [hc2, eq_self_iff_true, reduceIte] at h
    repeat' split at h
    all_goals first
      | simp only [reduceCtorEq] at h
      | (simp only [Except.ok.injEq, Prod.mk.injEq] at h
         obtain ⟨-, -, hs⟩ := h
         subst hs
         try simp only [List.length_drop, List.length_take, List.length_tail]
         omega)
  simp only [hc2, reduceIte] at h
  by_cases hc3 : s.headD 0 = 0x03
  · simp only [hc3, eq_self_iff_true, reduceIte] at h
    repeat' split at h
    all_goals first
      | simp only [reduceCtorEq] at h
      | (simp only [Except.ok.injEq, Prod.mk.injEq] at h
         obtain ⟨-, -, hs⟩ := h
         subst hs
         try simp only [List.length_drop, List.length_take, List.length_tail]
         omega)
  simp only [hc3, reduceIte] at h
  by_cases hc4 : s.headD 0 = 0x04
  · simp only [hc4, eq_self_iff_true, reduceIte] at h
    repeat' split at h
    all_goals first
      | simp only [reduceCtorEq] at h
      | (simp only [Except.ok.injEq, Prod.mk.injEq] at h
         obtain ⟨-, -, hs⟩ := h
         subst hs
         try simp only [List.length_drop, List.length_take, List.length_tail]
         omega)
  simp only [hc4, reduceIte] at h
  by_cases hc5 : s.headD 0 = 0x05
  · simp only [hc5, eq_self_iff_true, reduceIte] at h
    repeat' split at h
    all_goals first
      | simp only [reduceCtorEq] at h
      | (simp only [Except.ok.injEq, Prod.mk.injEq] at h
         obtain ⟨-, -, hs⟩ := h
         subst hs
         try simp only [List.length_drop, List.length_take, List.length_tail]
         omega)
  simp only [hc5, reduceIte] at h
  by_cases hc6 : s.headD 0 = 0x06
  · simp only [hc6, eq_self_iff_true, reduceIte] at h
    repeat' split at h
    all_goals first
      | simp only [reduceCtorEq] at h
      | (simp only [Except.ok.injEq, Prod.mk.injEq] at h
         obtain ⟨-, -, hs⟩ := h
         subst hs
         try simp only [List.length_drop, List.length_take, List.length_tail]
         omega)
  simp only [hc6, reduceIte] at h
  by_cases hc7 : s.headD 0 = 0x07
  · simp only [hc7, eq_self_iff_true, reduceIte] at h
    repeat' split at h
    all_goals first
      | simp only [reduceCtorEq] at h
      | (simp only [Except.ok.injEq, Prod.mk.injEq] at h
         obtain ⟨-, -, hs⟩ := h
         subst hs
         try simp only [List.length_drop, List.length_take, List.length_tail]
         omega)
  simp only [hc7, reduceIte] at h
  by_cases hc8 : s.headD 0 = 0x20
  · simp only [hc8, eq_self_iff_true, reduceIte] at h
    repeat' split at h
    all_goals first
      | simp only [reduceCtorEq] at h
      | (simp only [Except.ok.injEq, Prod.mk.injEq] at h
         obtain ⟨-, -, hs⟩ := h
         subst hs
         try simp only [List.length_drop, List.length_take, List.length_tail]
         omega)
  simp only [hc8, reduceIte] at h
  by_cases hc9 : s.headD 0 = 0x2f
  · simp only [hc9, eq_self_iff_true, reduceIte] at h
    repeat' split at h
    all_goals first
      | simp only [reduceCtorEq] at h
      | (simp only [Except.ok.injEq, Prod.mk.injEq] at h
         obtain ⟨-, -, hs⟩ := h
         subst hs
         try simp only [List.length_drop, List.length_take, List.length_tail]
         omega)
  simp only [hc9, reduceIte] at h
  by_cases hc10 : s.headD 0 = 0x51
  · simp only [hc10, eq_self_iff_true, reduceIte] at h
    repeat' split at h
    all_goals first
      | simp only [reduceCtorEq] at h
      | (simp only [Except.ok.injEq, Prod.mk.injEq] at h
         obtain ⟨-, -, hs⟩ := h
         subst hs
         try simp only [List.length_drop, List.length_take, List.length_tail]
         omega)
  simp only [hc10, reduceIte] at h
  by_cases hc11 : s.headD 0 = 0x54
  · simp only [hc11, eq_self_iff_true, reduceIte] at h
    repeat' split at h
    all_goals first
      | simp only [reduceCtorEq] at h
      | (simp only [Except.ok.injEq, Prod.mk.injEq] at h
         obtain ⟨-, -, hs⟩ := h
         subst hs
         try simp only [List.length_drop, List.length_take, List.length_tail]
         omega)
  simp only [hc11, reduceIte] at h
  by_cases hc12 : s.headD 0 = 0x58
  · simp only [hc12, eq_self_iff_true, reduceIte] at h
    repeat' split at h
    all_goals first
      | simp only [reduceCtorEq] at h
      | (simp only [Except.ok.injEq, Prod.mk.injEq] at h
         obtain ⟨-, -, hs⟩ := h
         subst hs
         try simp only [List.length_drop, List.length_take, List.length_tail]
         omega)
  simp only [hc12, reduceIte] at h
  by_cases hc13 : s.headD 0 = 0x59
  · simp only [hc13, eq_self_iff_true, reduceIte] at h
    repeat' split at h
    all_goals first
      | simp only [reduceCtorEq] at h
      | (simp only [Except.ok.injEq, Prod.mk.injEq] at h
         obtain ⟨-, -, hs⟩ := h
         subst hs
         try simp only [List.length_drop, List.length_take, List.length_tail]
         omega)
  simp only [hc13, reduceIte] at h
  by_cases hc14 : s.headD 0 = 0x7f
  · simp only [hc14, eq_self_iff_true, reduceIte] at h
    repeat' split at h
    all_goals first
      | simp only [reduceCtorEq] at h
      | (simp only [Except.ok.injEq, Prod.mk.injEq] at h
         obtain ⟨-, -, hs⟩ := h
         subst hs
         try simp only [List.length_drop, List.length_take, List.length_tail]
         omega)
  simp only [hc14, reduceIte] at h
  repeat' split at h
  all_goals first
    | simp only [reduceCtorEq] at h
    | (simp only [Except.ok.injEq, Prod.mk.injEq] at h
       obtain ⟨-, -, hs⟩ := h
       subst hs
       try simp only [List.length_drop, List.length_take, List.length_tail]
       omega)

/-- `readEvent` consumes at least one byte of a non-empty stream. -/
theorem readEvent_length_lt (last b : Nat) (rest : List Nat) (ev : ParsedEvent)
    (last2 : Nat) (s2 : List Nat)
    (h : readEvent last (b :: rest) = .ok (ev, last2, s2)) :
    s2.length < (b :: rest).length := by
  have hr := readletIntAux_length (b :: rest) 0
  unfold readEvent readletInt at h
  revert h hr
  obtain ⟨dt, s1⟩ := readletIntAux (b :: rest) 0
  intro h hr
  simp only [List.length_cons] at hr ⊢
  have hs1 : s1.length ≤ rest.length := by simpa using hr
  clear hr
  simp only [readInt8, streamRead] at h
  have hx := readletIntAux_length s1.tail 0
  rcases hLP : readletIntAux s1.tail 0 with ⟨len2, s3⟩
  simp only [hLP] at h hx
  repeat' split at h
  all_goals first
    | simp only [reduceCtorEq] at h
    | (have hc := channelEvent_length _ _ _ _ _ _ _ h
       simp only [readInt8, List.length_tail] at hc
       omega)
    | (have hc := metaEvent_length _ _ _ _ _ _ h
       simp only [List.length_tail] at hc
       omega)
    | (simp only [Except.ok.injEq, Prod.mk.injEq] at h
       obtain ⟨-, -, hs⟩ := h
       subst hs
       try simp only [List.length_drop, List.length_take, List.length_tail] at hx ⊢
       omega)

/-- A chunk of the SMF container: 4-byte id, 32-bit big-endian
length, payload. -/
structure Chunk where
  id : List Nat
  length : Int
  data : List Nat

/-- The byte values of the ASCII string `MThd`. -/
def mthdId : List Nat := [77, 84, 104, 100]

/-- The byte values of the ASCII string `MTrk`. -/
def mtrkId : List Nat := [77, 84, 114, 107]

/-- `readChunk(stream)` from `MidiFile`: id, length, and `length`
bytes of payload (clamped by the remaining stream, as `substr` is). -/
def readChunk (s : List Nat) : Chunk × List Nat :=
  let (idBytes, s1) := streamRead s 4
  let (len, s2) := readInt32 s1
  let (payload, s3) := streamRead s2 len
  ({ id := idBytes, length := len, data := payload }, s3)

/-- The per-track event loop of `MidiFile`: decode events from the
track payload until the end of the chunk, threading the
running-status byte. -/
def parseTrackEvents (last : Nat) (s : List Nat) :
    Except String (List ParsedEvent × Nat) :=
  match s with
  | [] => .ok ([], last)
  | b :: rest =>
    match hre : readEvent last (b :: rest) with
    | .error e => .error e
    | .ok (ev, last1, s1) =>
      match parseTrackEvents last1 s1 with
      | .error e => .error e
      | .ok (evs, last2) => .ok (ev :: evs, last2)
termination_by s.length
decreasing_by
  exact readEvent_length_lt last b rest ev last1 s1 hre

/-- The decoded header of an SMF file. -/
structure MidiHeader where
  formatType : Nat
  trackCount : Nat
  ticksPerBeat : Nat

/-- A decoded SMF file: header plus one raw event list per track. -/
structure MidiFileData where
  header : MidiHeader
  tracks : List (List ParsedEvent)

/-- The track loop of `MidiFile`: read `count` `MTrk` chunks and
decode each one.  The running-status variable is declared in the
scope of `MidiFile`, so it is threaded across track boundaries,
exactly as in the source. -/
def parseTracks (s : List Nat) (last : Nat) : Nat → Except String (List (List ParsedEvent))
  | 0 => .ok []
  | n + 1 =>
    let (chunk, s1) := readChunk s
    if chunk.id ≠ mtrkId then
      .error ("Unexpected chunk - expected MTrk, got " ++ toString chunk.id)
    else
      match parseTrackEvents last chunk.data with
      | .error e => .error e
      | .ok (evs, last1) =>
        match parseTracks s1 last1 n with
        | .error e => .error e
        | .ok tracks => .ok (evs :: tracks)

/-- `MidiFile(data)` from `MidiParser.js`: parse the header chunk
(`MThd`, length 6, three big-endian 16-bit fields, SMPTE time
division rejected) and then `trackCount` tracks. -/
def MidiFile (data : List Nat) : Except String MidiFileData :=
  let (headerChunk, s1) := readChunk data
  if headerChunk.id ≠ mthdId ∨ headerChunk.length ≠ 6 then
    .error "Bad .mid file - header not found"
  else
    let hs := headerChunk.data
    let (formatType, hs1) := readInt16 hs
    let (trackCount, hs2) := readInt16 hs1
    let (timeDivision, _) := readInt16 hs2
    if timeDivision &&& 0x8000 ≠ 0 then
      .error "Expressing time division in SMTPE frames is not supported yet"
    else
      match parseTracks s1 0 trackCount with
      | .error e => .error e
      | .ok tracks =>
        .ok { header := { formatType := formatType, trackCount := trackCount,
                          ticksPerBeat := timeDivision },
              tracks := tracks }

/-!
## The tempo replayer (`Replayer` in `MidiParser.js`)
-/

/-- The per-track state of the replayer: the index of the next
unconsumed event and the tick count until it fires (`none` once the
track is exhausted). -/
structure TrackState where
  nextEventIndex : Nat
  ticksToNextEvent : Option ℚ
deriving DecidableEq, Repr, Inhabited

/-- An event emitted by the replayer: the raw event (spread into the
result object in the source, held here as `base`), the tick delta
used for its emission, the originating track index and the absolute
millisecond timestamp. -/
structure TimedEvent where
  base : ParsedEvent
  ticksToEvent : ℚ := 0
  track : Nat := 0
  timestamp : ℚ := 0

instance : Inhabited TimedEvent := ⟨{ base := {} }⟩

/-- Initial track states: index `0`, and the first event's delta time
(or `none` for an empty track). -/
def initTrackStates (tracks : List (List ParsedEvent)) : List TrackState :=
  tracks.map (fun tr =>
    { nextEventIndex := 0,
      ticksToNextEvent :=
        match tr.head? with
        | some e => some (e.deltaTime : ℚ)
        | none => none })

/-- The scan of `getNextEvent` over the track states: find the track
with the smallest non-`null` `ticksToNextEvent`; a strict comparison
means the earliest track index wins ties.  `i` is the index of the
first state in `states`; the accumulator holds the best
`(ticksToNextEvent, trackIndex, nextEventIndex)` so far. -/
def selectLoop : List TrackState → Nat → Option (ℚ × Nat × Nat) → Option (ℚ × Nat × Nat)
  | [], _, acc => acc
  | st :: rest, i, acc =>
    let acc1 :=
      match st.ticksToNextEvent, acc with
      | some q, none => some (q, i, st.nextEventIndex)
      | some q, some (m, t, e) => if q < m then some (q, i, st.nextEventIndex) else some (m, t, e)
      | none, _ => acc
    selectLoop rest (i + 1) acc1

/-- `getNextEvent` of the replayer: pick the track with the least
ticks to its next event; consume that event (advancing the track's
tick counter by the following event's delta, or exhausting it), then
subtract the selected tick count from every non-exhausted track.  The
selected track's `ticksToNextEvent` equals the selected minimum, so
its updated counter is written directly as `ticks + deltaTime`.
Returns the emitted event (without timestamp) and the new states. -/
def getNextEvent (tracks : List (List ParsedEvent)) (states : List TrackState) :
    Option (TimedEvent × List TrackState) :=
  match selectLoop states 0 none with
  | none => none
  | some (ticks, ti, ei) =>
    let track := tracks.getD ti []
    let nextEvent := track.getD ei {}
    let consumed := states.getD ti default
    let consumed1 : TrackState :=
      if ei + 1 < track.length then
        { consumed with
            ticksToNextEvent := some (ticks + ((track.getD (ei + 1) {}).deltaTime : ℚ))
            nextEventIndex := consumed.nextEventIndex + 1 }
      else
        { consumed with ticksToNextEvent := none, nextEventIndex := consumed.nextEventIndex + 1 }
    let states1 := states.set ti consumed1
    let states2 := states1.map (fun st =>
      match st.ticksToNextEvent with
      | some q => { st with ticksToNextEvent := some (q - ticks) }
      | none => st)
    some ({ base := nextEvent, ticksToEvent := ticks, track := ti }, states2)

/-- The `while (midiEvent = getNextEvent())` loop of the replayer:
on each emitted event, first update the tempo if the event is a
`setTempo` meta event, then convert the event's tick delta to
milliseconds at the (possibly just updated) tempo and emit the event
at the accumulated time.  In `ℚ` the guard `|| 0` of the source is
the identity, and a zero `microsecondsPerBeat` or `ticksPerBeat`
makes the corresponding division `0` (where JavaScript would produce
`Infinity` arithmetic with the same non-decreasing timestamps).  The
`fuel` parameter dominates the iteration count: each iteration
consumes one event of one track, so `totalEventCount + 1` iterations
are never exhausted before `getNextEvent` returns `null`. -/
def replayerLoop (tracks : List (List ParsedEvent)) (ticksPerBeat : Nat) :
    Nat → List TrackState → ℚ → ℚ → List TimedEvent
  | 0, _, _, _ => []
  | fuel + 1, states, bpm, currentTime =>
    match getNextEvent tracks states with
    | none => []
    | some (ev, states1) =>
      let bpm1 :=
        if ev.base.type = "meta" ∧ ev.base.subtype = "setTempo" then
          60000000 / ev.base.microsecondsPerBeat
        else bpm
      let secondsToGenerate : ℚ :=
        if ev.ticksToEvent > 0 then
          (ev.ticksToEvent / (ticksPerBeat : ℚ)) / (bpm1 / 60)
        else 0
      let deltaTime := secondsToGenerate * 1000
      let ct := currentTime + deltaTime
      { ev with timestamp := ct } :: replayerLoop tracks ticksPerBeat fuel states1 bpm1 ct

/-- The total number of raw events of all tracks. -/
def totalEventCount (tracks : List (List ParsedEvent)) : Nat :=
  (tracks.map List.length).sum

/-- `new Replayer(midiFile).getData()`: the merged, timestamped event
stream, starting at 120 BPM and time `0`. -/
def replayerGetData (mf : MidiFileData) : List TimedEvent :=
  replayerLoop mf.tracks mf.header.ticksPerBeat (totalEventCount mf.tracks + 1)
    (initTrackStates mf.tracks) 120 0

/-!
## The event formatter and the load pipeline
-/

/-- The first pass of `_formatReplayerData`: keep only `noteOn` and
`noteOff` events and reshape them into note events. -/
def formatOne (e : TimedEvent) : Option NoteEvent :=
  if e.base.subtype = "noteOn" ∨ e.base.subtype = "noteOff" then
    some { channel := some e.base.channel
           note := e.base.noteNumber
           timestamp := e.timestamp
           track := some (e.track : Int)
           type := e.base.subtype
           velocity := some e.base.velocity }
  else none

/-- The second pass of `_formatReplayerData`: give each `noteOn`
event the length to the next following `noteOff` event with the same
note, when one exists.  The in-place mutation of the source is pure
here because only `noteOn` events receive a `length` while the scan
reads only `noteOff` events, which the pass never modifies. -/
def addLengths (l : List NoteEvent) : List NoteEvent :=
  l.mapIdx (fun i e =>
    if e.type = "noteOn" then
      match (l.drop (i + 1)).find? (fun x => x.type == "noteOff" && x.note == e.note) with
      | some off => { e with length := some (off.timestamp - e.timestamp) }
      | none => e
    else e)

/-- `_formatReplayerData`. -/
def formatReplayerData (l : List TimedEvent) : List NoteEvent :=
  addLengths (l.filterMap formatOne)

/-- `parseDataUrl`, after the base64 layer: decode the container,
replay it and format the result.  The base64 decoding itself
(`window.atob`) is an external collaborator producing the byte
sequence given here. -/
def parseMidiData (data : List Nat) : Except String (List NoteEvent) :=
  match MidiFile data with
  | .error e => .error e
  | .ok mf => .ok (formatReplayerData (replayerGetData mf))

/-- `loadFromDataUrl` of the player: parse, then load through
`loadParsedMidi` and resolve with `getMidiEvents`.  The parse runs
inside the promise executor before any state is touched, so a thrown
decode error rejects the promise and leaves the player state exactly
as it was. -/
def loadFromDataUrl (st : PlayerState) (data : List Nat) (noteShift : Int) :
    Except String (List NoteEvent) × PlayerState :=
  match parseMidiData data with
  | .error e => (.error e, st)
  | .ok evs =>
    let (st1, _) := loadParsedMidi st evs noteShift
    (.ok (getMidiEvents st1), st1)

/-!
## Theorems about the claims
-/

/-- The order relation used throughout: comparison of timestamps. -/
def tsLe (a b : NoteEvent) : Prop :=
  a.timestamp ≤ b.timestamp

/-- Claim C9: whenever the decode of a byte sequence fails, the load
operation raises that error to the caller and leaves the player state
exactly as it was — no partial result is stored. -/
theorem load_error_preserves_state (st : PlayerState) (data : List Nat) (noteShift : Int)
    (e : String) (h : parseMidiData data = .error e) :
    loadFromDataUrl st data noteShift = (.error e, st) := by
  simp [loadFromDataUrl, h]

/-- Witness for C9: the empty byte sequence fails with the header
error, and loading it leaves a concrete player state untouched. -/
theorem load_error_preserves_state_witness :
    parseMidiData [] = .error "Bad .mid file - header not found" ∧
    loadFromDataUrl ⟨[], [], 3, 1, 7, true⟩ [] 5 =
      (.error "Bad .mid file - header not found", ⟨[], [], 3, 1, 7, true⟩) :=
  ⟨rfl, load_error_preserves_state ⟨[], [], 3, 1, 7, true⟩ [] 5 _ rfl⟩

/-- The specification-side reading of the superset match: the event
has every key present in the pattern, with equal values (for the
optional keys, presence means `some`). -/
def patternMatches (e : NoteEvent) (p : EventPattern) : Prop :=
  (∀ v, p.timestamp = some v → e.timestamp = v) ∧
  (∀ v, p.note = some v → e.note = v) ∧
  (∀ v, p.type = some v → e.type = v) ∧
  (∀ v, p.channel = some v → e.channel = some v) ∧
  (∀ v, p.track = some v → e.track = some v) ∧
  (∀ v, p.velocity = some v → e.velocity = some v) ∧
  (∀ v, p.length = some v → e.length = some v)

/-- The Boolean superset match of the source agrees with the
specification-side reading. -/
theorem objContainsObj_iff (e : NoteEvent) (p : EventPattern) :
    objContainsObj e p = true ↔ patternMatches e p := by
  obtain ⟨pt, pn, pty, pc, ptr, pv, pl⟩ := p
  cases pt <;> cases pn <;> cases pty <;> cases pc <;> cases ptr <;> cases pv <;> cases pl <;>
    simp [objContainsObj, patternMatches, and_assoc]

/-- Claim C7: `removeEvents(pattern)` removes, from both sequences,
exactly the events that contain every key present in the pattern with
strictly equal values, leaving all other events unchanged and in
order; the empty pattern removes every event. -/
theorem removeEvents_superset_semantics (st : PlayerState) (p : EventPattern) :
    (removeEvents st p).playedEvents =
      st.playedEvents.filter (fun e => !objContainsObj e p) ∧
    (removeEvents st p).events = st.events.filter (fun e => !objContainsObj e p) ∧
    (∀ e : NoteEvent, objContainsObj e p = true ↔ patternMatches e p) ∧
    (removeEvents st {}).playedEvents = [] ∧ (removeEvents st {}).events = [] := by
  refine ⟨rfl, rfl, fun e => objContainsObj_iff e p, ?_, ?_⟩ <;>
    simp [removeEvents, objContainsObj, List.filter_eq_nil_iff]

/-- Fields of the state produced by `loadParsedMidi` with a zero note
shift: the given events become the pending list, nothing is played,
the player is stopped at time `0`, and the speed is untouched. -/
theorem loadParsedMidi_fields (st : PlayerState) (evs : List NoteEvent) :
    (loadParsedMidi st evs 0).1.events = evs ∧
    (loadParsedMidi st evs 0).1.playedEvents = [] ∧
    (loadParsedMidi st evs 0).1.currentTime = 0 ∧
    (loadParsedMidi st evs 0).1.playing = false ∧
    (loadParsedMidi st evs 0).1.speed = st.speed := by
  cases hp : st.playing <;>
    simp [loadParsedMidi, reset, stop, pause, setTime, removeEvents, updateDuration, hp,
      objContainsObj]

/-- Claim C10: after `reverseMidiData`, the player is not playing,
the current time is `0`, no event is played, and the pending list is
exactly the reversed event list — reversing reloads through
`loadParsedMidi`, whose `reset`/`stop`/`setTime(0)` chain implicitly
stops playback and rewinds to time zero. -/
theorem reverseMidiData_stops_and_rewinds (st : PlayerState)
    (h : getMidiEvents st ≠ []) :
    (reverseMidiData st).1.playing = false ∧
    (reverseMidiData st).1.currentTime = 0 ∧
    (reverseMidiData st).1.playedEvents = [] ∧
    (reverseMidiData st).1.events = reverseTransform st.duration (getMidiEvents st) := by
  obtain ⟨h1, h2, h3, h4, -⟩ :=
    loadParsedMidi_fields st (reverseTransform st.duration (getMidiEvents st))
  exact ⟨h4, h3, h2, h1⟩

/-- Witness for C10: a concrete non-empty state, one played and one
pending event, playing at time `6`. -/
theorem reverseMidiData_stops_and_rewinds_witness :
    getMidiEvents ⟨[⟨8, 2, "noteOn", none, none, none, none⟩],
        [⟨5, 1, "noteOn", none, none, none, none⟩], 6, 1, 8, true⟩ ≠ [] ∧
    (reverseMidiData ⟨[⟨8, 2, "noteOn", none, none, none, none⟩],
        [⟨5, 1, "noteOn", none, none, none, none⟩], 6, 1, 8, true⟩).1.playing = false ∧
    (reverseMidiData ⟨[⟨8, 2, "noteOn", none, none, none, none⟩],
        [⟨5, 1, "noteOn", none, none, none, none⟩], 6, 1, 8, true⟩).1.currentTime = 0 ∧
    (reverseMidiData ⟨[⟨8, 2, "noteOn", none, none, none, none⟩],
        [⟨5, 1, "noteOn", none, none, none, none⟩], 6, 1, 8, true⟩).1.playedEvents = [] ∧
    (reverseMidiData ⟨[⟨8, 2, "noteOn", none, none, none, none⟩],
        [⟨5, 1, "noteOn", none, none, none, none⟩], 6, 1, 8, true⟩).1.events =
      reverseTransform 8 (getMidiEvents ⟨[⟨8, 2, "noteOn", none, none, none, none⟩],
        [⟨5, 1, "noteOn", none, none, none, none⟩], 6, 1, 8, true⟩) :=
  ⟨by decide, reverseMidiData_stops_and_rewinds _ (by decide)⟩

/-- The sequential dispatch loop consumes every pending event in
order, dispatching each exactly once, appending them to the played
list, and ends at the last event's timestamp (or at the start time
when there is none). -/
theorem playLoop_spec (pend played : List NoteEvent) (t : ℚ) :
    playLoop pend played t =
      ([], played ++ pend,
        (match pend.getLast? with | some e => e.timestamp | none => t),
        pend.map Trigger.note) := by
  induction pend generalizing played t with
  | nil => simp [playLoop]
  | cons e rest ih =>
    rw [playLoop]
    rw [ih]
    cases rest <;> simp [List.getLast?_cons]

/-- Counterexample to claim C4: calling `play()` while the player is
already playing is not a no-op — on a concrete playing state it both
changes the observable state and fires callbacks. -/
theorem play_while_playing_not_noop_cex :
    (⟨[⟨5, 1, "noteOn", none, none, none, none⟩], [], 0, 1, 5, true⟩ : PlayerState).playing =
      true ∧
    (play ⟨[⟨5, 1, "noteOn", none, none, none, none⟩], [], 0, 1, 5, true⟩).1 ≠
      ⟨[⟨5, 1, "noteOn", none, none, none, none⟩], [], 0, 1, 5, true⟩ ∧
    (play ⟨[⟨5, 1, "noteOn", none, none, none, none⟩], [], 0, 1, 5, true⟩).2 ≠ [] := by
  refine ⟨rfl, ?_, ?_⟩ <;> decide

/-- Claim C4 as amended: `play()` has no guard against being called
while already playing — it fires the `play` callbacks again and runs
the dispatch loop afresh, dispatching every pending event once more
in order (in the real asynchronous setting this is a second
concurrent loop), then pauses and fires `finish`. -/
theorem play_while_playing_runs_again (st : PlayerState) (h : st.playing = true) :
    play st =
      ({ st with
          playing := false
          events := []
          playedEvents := st.playedEvents ++ st.events
          currentTime := match st.events.getLast? with | some e => e.timestamp | none => st.currentTime },
        Trigger.lifecycle "play" :: st.events.map Trigger.note ++
          [Trigger.lifecycle "pause", Trigger.lifecycle "finish"]) := by
  rw [play]
  rw [playLoop_spec]
  simp [pause]

/-- Witness for C4's amended claim at a concrete playing state. -/
theorem play_while_playing_runs_again_witness :
    (⟨[⟨5, 1, "noteOn", none, none, none, none⟩], [], 0, 1, 5, true⟩ : PlayerState).playing =
      true ∧
    play ⟨[⟨5, 1, "noteOn", none, none, none, none⟩], [], 0, 1, 5, true⟩ =
      ({ (⟨[⟨5, 1, "noteOn", none, none, none, none⟩], [], 0, 1, 5, true⟩ : PlayerState) with
          playing := false
          events := []
          playedEvents := [] ++ [⟨5, 1, "noteOn", none, none, none, none⟩]
          currentTime :=
            match ([⟨5, 1, "noteOn", none, none, none, none⟩] : List NoteEvent).getLast? with
            | some e => e.timestamp | none => 0 },
        Trigger.lifecycle "play" ::
          ([⟨5, 1, "noteOn", none, none, none, none⟩] : List NoteEvent).map Trigger.note ++
          [Trigger.lifecycle "pause", Trigger.lifecycle "finish"]) :=
  ⟨rfl, play_while_playing_runs_again _ rfl⟩

/-- The concrete one-track MIDI file used for claim C3: a single
`setTempo` event (to 1,000,000 µs/beat, i.e. 60 BPM) after a delta of
one tick, with one tick per beat. -/
def tempoEvent : ParsedEvent :=
  { deltaTime := 1
    type := "meta"
    subtype := "setTempo"
    microsecondsPerBeat := 1000000 }

/-- The file holding just `tempoEvent`. -/
def tempoFile : MidiFileData :=
  { header := { formatType := 0, trackCount := 1, ticksPerBeat := 1 }
    tracks := [[tempoEvent]] }

/-- Counterexample to claim C3: were the `setTempo` event's own delta
converted at the tempo in effect before it (the initial 120 BPM), its
timestamp would be `500`; the replayer updates the tempo first and
emits it at `1000`. -/
theorem setTempo_own_delta_uses_new_tempo_cex :
    (replayerGetData tempoFile).map (fun e => e.timestamp) = [1000] ∧
    ¬ (replayerGetData tempoFile).map (fun e => e.timestamp) = [500] := by
  constructor <;>
    [skip; intro hcon] <;>
    [(simp [replayerGetData, totalEventCount, tempoFile, tempoEvent, replayerLoop, getNextEvent,
        initTrackStates, selectLoop]
      norm_num);
     (simp [replayerGetData, totalEventCount, tempoFile, tempoEvent, replayerLoop, getNextEvent,
        initTrackStates, selectLoop] at hcon
      revert hcon
      norm_num)]

/-- Claim C3 as amended: when the replayer emits a `setTempo` meta
event, the tempo update `currentBPM = 60000000 / microsecondsPerBeat`
is applied *before* the delta conversion of that very event: the
`setTempo` event's own tick delta, and all subsequent events, are
converted at the new tempo, while the timestamps already emitted
(the part of the output list before this event) are unaffected. -/
theorem setTempo_applies_to_own_delta (tracks : List (List ParsedEvent)) (tpb : Nat)
    (fuel : Nat) (states : List TrackState) (bpm t : ℚ) (ev : TimedEvent)
    (states1 : List TrackState)
    (h : getNextEvent tracks states = some (ev, states1))
    (hmeta : ev.base.type = "meta") (hsub : ev.base.subtype = "setTempo") :
    replayerLoop tracks tpb (fuel + 1) states bpm t =
      { ev with timestamp := t +
          (if ev.ticksToEvent > 0 then
            (ev.ticksToEvent / (tpb : ℚ)) / ((60000000 / ev.base.microsecondsPerBeat) / 60)
          else 0) * 1000 } ::
        replayerLoop tracks tpb fuel states1 (60000000 / ev.base.microsecondsPerBeat)
          (t + (if ev.ticksToEvent > 0 then
            (ev.ticksToEvent / (tpb : ℚ)) / ((60000000 / ev.base.microsecondsPerBeat) / 60)
          else 0) * 1000) := by
  rw [replayerLoop, h]
  simp [hmeta, hsub]

/-- Witness for C3's amended claim at `tempoFile`: the first replayer
step emits the `setTempo` event with its own delta converted at the
new 60 BPM tempo. -/
theorem setTempo_applies_to_own_delta_witness :
    getNextEvent [[tempoEvent]] (initTrackStates [[tempoEvent]]) =
      some ({ base := tempoEvent, ticksToEvent := 1, track := 0 },
            [{ nextEventIndex := 1, ticksToNextEvent := none }]) ∧
    replayerLoop [[tempoEvent]] 1 2 (initTrackStates [[tempoEvent]]) 120 0 =
      { base := tempoEvent
        ticksToEvent := 1
        track := 0
        timestamp := 0 +
          (if ({ base := tempoEvent, ticksToEvent := 1, track := 0 } : TimedEvent).ticksToEvent > 0 then
            (({ base := tempoEvent, ticksToEvent := 1, track := 0 } : TimedEvent).ticksToEvent /
                ((1 : Nat) : ℚ)) / ((60000000 / tempoEvent.microsecondsPerBeat) / 60)
          else 0) * 1000 } ::
        replayerLoop [[tempoEvent]] 1 1 [{ nextEventIndex := 1, ticksToNextEvent := none }]
          (60000000 / tempoEvent.microsecondsPerBeat)
          (0 + (if ({ base := tempoEvent, ticksToEvent := 1, track := 0 } : TimedEvent).ticksToEvent > 0 then
            (({ base := tempoEvent, ticksToEvent := 1, track := 0 } : TimedEvent).ticksToEvent /
                ((1 : Nat) : ℚ)) / ((60000000 / tempoEvent.microsecondsPerBeat) / 60)
          else 0) * 1000) :=
  ⟨by rfl, setTempo_applies_to_own_delta _ _ _ _ _ _ _ _ (by rfl) (by rfl) (by rfl)⟩

/-- The first `setTime` loop shifts exactly the leading pending
events with timestamps before the target onto the end of the played
list. -/
theorem setTimeForward_eq (ms : ℚ) : ∀ (pend played : List NoteEvent),
    setTimeForward ms played pend =
      (played ++ pend.takeWhile (fun e => decide (e.timestamp < ms)),
       pend.dropWhile (fun e => decide (e.timestamp < ms)))
  | [], played => by simp [setTimeForward]
  | e :: rest, played => by
    rw [setTimeForward]
    by_cases h : ms > e.timestamp
    · rw [if_pos h, setTimeForward_eq ms rest (played ++ [e])]
      simp [List.takeWhile_cons, List.dropWhile_cons, gt_iff_lt.mp h]
    · rw [if_neg h]
      have h2 : ¬ e.timestamp < ms := h
      simp [List.takeWhile_cons, List.dropWhile_cons, h2]

/-- The second `setTime` loop, on the reversed played list, moves
exactly the leading (originally trailing) events with timestamps at
or after the target back onto the front of the pending list. -/
theorem setTimeBackward_eq (ms : ℚ) : ∀ (revP pend : List NoteEvent),
    setTimeBackward ms revP pend =
      (revP.dropWhile (fun e => decide (ms ≤ e.timestamp)),
       (revP.takeWhile (fun e => decide (ms ≤ e.timestamp))).reverse ++ pend)
  | [], pend => by simp [setTimeBackward]
  | e :: revRest, pend => by
    rw [setTimeBackward]
    by_cases h : ms ≤ e.timestamp
    · rw [if_pos h, setTimeBackward_eq ms revRest (e :: pend)]
      simp [List.takeWhile_cons, List.dropWhile_cons, h]
    · rw [if_neg h]
      simp [List.takeWhile_cons, List.dropWhile_cons, h]

/-- On a `Pairwise`-sorted list, `takeWhile`/`dropWhile` for a
predicate that is downward closed along the order coincide with
`filter`. -/
theorem takeWhile_filter_of_pairwise {α : Type} {R : α → α → Prop} {p : α → Bool}
    (hdown : ∀ x y, R x y → p y = true → p x = true) :
    ∀ (l : List α), l.Pairwise R →
      l.takeWhile p = l.filter p ∧ l.dropWhile p = l.filter (fun x => !p x)
  | [], _ => by simp
  | x :: l, hpw => by
    obtain ⟨hx, hl⟩ := List.pairwise_cons.mp hpw
    obtain ⟨ht, hd⟩ := takeWhile_filter_of_pairwise hdown l hl
    cases hp : p x with
    | true => simp [List.takeWhile_cons, List.dropWhile_cons, List.filter_cons, hp, ht, hd]
    | false =>
      have hall : ∀ a ∈ l, ¬ p a = true := by
        intro a ha hpa
        exact absurd (hdown x a (hx a ha) hpa) (by simp [hp])
      have hnil : l.filter p = [] := List.filter_eq_nil_iff.mpr hall
      have hself : l.filter (fun x => !p x) = l :=
        List.filter_eq_self.mpr (fun a ha => by simp [hall a ha])
      simp [List.takeWhile_cons, List.dropWhile_cons, List.filter_cons, hp, hnil, hself]

/-- Claim C5: on a timeline satisfying the partition invariant (the
concatenated event list is sorted by timestamp), `setTime(t)` leaves
exactly the events with timestamps strictly below `t` in the played
list and the events with timestamps at or above `t` — including those
exactly at `t` — in the pending list, both still sorted ascending. -/
theorem setTime_partition (st : PlayerState) (ms : ℚ)
    (hinv : List.Pairwise tsLe (getMidiEvents st)) :
    (setTime st ms).playedEvents =
      (getMidiEvents st).filter (fun e => decide (e.timestamp < ms)) ∧
    (setTime st ms).events =
      (getMidiEvents st).filter (fun e => decide (ms ≤ e.timestamp)) ∧
    List.Pairwise tsLe (setTime st ms).playedEvents ∧
    List.Pairwise tsLe (setTime st ms).events := by
  obtain ⟨hP, hE, hPE⟩ := List.pairwise_append.mp hinv
  have hdownLt : ∀ x y : NoteEvent, tsLe x y →
      decide (y.timestamp < ms) = true → decide (x.timestamp < ms) = true := by
    intro x y hxy hy
    simp only [decide_eq_true_eq] at hy ⊢
    exact lt_of_le_of_lt hxy hy
  have hdownGe : ∀ x y : NoteEvent, (flip tsLe) x y →
      decide (ms ≤ y.timestamp) = true → decide (ms ≤ x.timestamp) = true := by
    intro x y hxy hy
    simp only [decide_eq_true_eq] at hy ⊢
    exact le_trans hy hxy
  obtain ⟨htE, hdE⟩ := takeWhile_filter_of_pairwise hdownLt st.events hE
  have hp1 : List.Pairwise tsLe
      (st.playedEvents ++ st.events.filter (fun e => decide (e.timestamp < ms))) := by
    refine List.pairwise_append.mpr ⟨hP, hE.filter _, ?_⟩
    intro a ha b hb
    exact hPE a ha b (List.mem_of_mem_filter hb)
  obtain ⟨htP, hdP⟩ :=
    takeWhile_filter_of_pairwise hdownGe _ (List.pairwise_reverse.mpr hp1)
  have hcgLt : ∀ (l : List NoteEvent),
      l.filter (fun e => !decide (ms ≤ e.timestamp)) =
        l.filter (fun e => decide (e.timestamp < ms)) :=
    fun l => List.filter_congr (fun a _ => by
      by_cases hc : ms ≤ a.timestamp
      · simp [hc, not_lt.mpr hc]
      · simp [hc, not_le.mp hc])
  have hcgGe : ∀ (l : List NoteEvent),
      l.filter (fun e => !decide (e.timestamp < ms)) =
        l.filter (fun e => decide (ms ≤ e.timestamp)) :=
    fun l => List.filter_congr (fun a _ => by
      by_cases hc : a.timestamp < ms
      · simp [hc, not_le.mpr hc]
      · simp [hc, not_lt.mp hc])
  have hPlayed : (setTime st ms).playedEvents =
      (getMidiEvents st).filter (fun e => decide (e.timestamp < ms)) := by
    rw [setTime]
    simp only [setTimeForward_eq, setTimeBackward_eq, htE]
    rw [hdP, List.filter_reverse, List.reverse_reverse, hcgLt, getMidiEvents,
      List.filter_append, List.filter_append, List.filter_filter]
    congr 1
    exact List.filter_congr (fun a _ => by simp)
  have hPending : (setTime st ms).events =
      (getMidiEvents st).filter (fun e => decide (ms ≤ e.timestamp)) := by
    rw [setTime]
    simp only [setTimeForward_eq, setTimeBackward_eq, htE, hdE]
    rw [htP, List.filter_reverse, List.reverse_reverse, getMidiEvents, List.filter_append,
      List.filter_append, List.filter_filter]
    have h0 : st.events.filter
        (fun a => decide (ms ≤ a.timestamp) && decide (a.timestamp < ms)) = [] := by
      rw [List.filter_eq_nil_iff]
      intro a _ hcon
      simp only [Bool.and_eq_true, decide_eq_true_eq] at hcon
      exact absurd hcon.2 (not_lt.mpr hcon.1)
    rw [h0, List.append_nil, hcgGe]
  refine ⟨hPlayed, hPending, ?_, ?_⟩
  · rw [hPlayed]
    exact hinv.filter _
  · rw [hPending]
    exact hinv.filter _
